import Mathlib

/-
Verification of the file-backed block device emulator (lfs2_filebd).

The repository ships the interface header src/bd/lfs2_filebd.h, which declares
the lifecycle operations lfs2_filebd_create / lfs2_filebd_destroy and the data
operations lfs2_filebd_read / lfs2_filebd_prog / lfs2_filebd_erase /
lfs2_filebd_sync over a geometry struct lfs2_filebd_config.  The implementation
file lfs2_filebd.c is not part of the sources, so the operation bodies below
are modelled from the specification's description of each operation.

The backing file is embedded as a flat `List Nat` of byte values; the device
geometry is the four-field config struct from the header.  Every operation is
a pure function from the geometry and the current backing-file contents to an
`Except` result carrying the new backing-file contents, mirroring the
synchronous, caller-driven control flow the spec describes.
-/

namespace LFS2

/-- Error taxonomy of the emulator: RangeError for block-address-space bound
violations, IOError for failing or short file operations, ResourceError for
create failing to establish the backing file (spec section 7). -/
inductive Err where
  | RangeError : Err
  | IOError : Err
  | ResourceError : Err
deriving DecidableEq

/-- Device geometry, embedding struct lfs2_filebd_config from
src/bd/lfs2_filebd.h (lines 30-42): minimum read size, minimum program size,
bytes per erase block, and number of erase blocks. -/
structure Config where
  read_size : Nat
  prog_size : Nat
  erase_size : Nat
  erase_count : Nat
deriving DecidableEq

/-- The erase value: every byte of an erased block holds 0xFF. -/
def eraseValue : Nat := 0xFF

/-- Logical extent of the backing file: erase_size * erase_count bytes. -/
def totalSize (cfg : Config) : Nat := cfg.erase_size * cfg.erase_count

/-- Read `len` bytes of `file` starting at absolute byte position `pos`
(the result is shorter than `len` when the file ends early). -/
def readBytes (file : List Nat) (pos len : Nat) : List Nat :=
  (file.drop pos).take len

/-- Overwrite the bytes of `file` at absolute byte position `pos` with
`data`, leaving all bytes outside `[pos, pos + data.length)` unchanged. -/
def writeBytes (file : List Nat) (pos : Nat) (data : List Nat) : List Nat :=
  file.take pos ++ data ++ file.drop (pos + data.length)

/-- Modelled from the spec: lfs2_filebd_create (declared at
src/bd/lfs2_filebd.h lines 51-53; lfs2_filebd.c is absent).  Opens the backing
file at the given path, creating it if absent, and ensures its length is at
least erase_size * erase_count bytes, extending with the erase value 0xFF; a
pre-existing, sufficiently large file is not truncated.  The path and open
flags are environmental and elided: the function maps the prior contents of
the backing file (empty when the file is new) to its contents after create. -/
def lfs2_filebd_create (cfg : Config) (file : List Nat) : List Nat :=
  if file.length < totalSize cfg then
    file ++ List.replicate (totalSize cfg - file.length) eraseValue
  else
    file

/-- Modelled from the spec: lfs2_filebd_destroy (declared at
src/bd/lfs2_filebd.h line 56; lfs2_filebd.c is absent).  Releases the file
descriptor; the backing file itself persists unchanged, and is what a later
create over the same path reopens. -/
def lfs2_filebd_destroy (file : List Nat) : List Nat :=
  file

/-- Modelled from the spec: lfs2_filebd_read (declared at
src/bd/lfs2_filebd.h lines 58-60; lfs2_filebd.c is absent).  Checks the
block-address-space bounds before any file access, then reads exactly `len`
bytes at absolute position block * erase_size + off, failing with IOError on
a short read.  Returns the (unchanged) backing file and the bytes read. -/
def lfs2_filebd_read (cfg : Config) (file : List Nat) (block off len : Nat) :
    Except Err (List Nat × List Nat) :=
  if cfg.erase_count ≤ block ∨ cfg.erase_size < off + len then
    .error .RangeError
  else if (readBytes file (block * cfg.erase_size + off) len).length < len then
    .error .IOError
  else
    .ok (file, readBytes file (block * cfg.erase_size + off) len)

/-- Modelled from the spec: lfs2_filebd_prog (declared at
src/bd/lfs2_filebd.h lines 62-66; lfs2_filebd.c is absent).  Checks the
block-address-space bounds before any file access, then unconditionally
writes `data` at absolute position block * erase_size + off, overwriting
whatever bytes are stored there; the erase-before-program precondition is
not mechanically checked. -/
def lfs2_filebd_prog (cfg : Config) (file : List Nat) (block off : Nat)
    (data : List Nat) : Except Err (List Nat) :=
  if cfg.erase_count ≤ block ∨ cfg.erase_size < off + data.length then
    .error .RangeError
  else
    .ok (writeBytes file (block * cfg.erase_size + off) data)

/-- Modelled from the spec: lfs2_filebd_erase (declared at
src/bd/lfs2_filebd.h lines 68-72; lfs2_filebd.c is absent).  Checks the block
index bound before any file access, then resets the addressed block by
writing erase_size bytes of the erase value 0xFF at absolute position
block * erase_size. -/
def lfs2_filebd_erase (cfg : Config) (file : List Nat) (block : Nat) :
    Except Err (List Nat) :=
  if cfg.erase_count ≤ block then
    .error .RangeError
  else
    .ok (writeBytes file (block * cfg.erase_size)
          (List.replicate cfg.erase_size eraseValue))

/-- Modelled from the spec: lfs2_filebd_sync (declared at
src/bd/lfs2_filebd.h lines 74-75; lfs2_filebd.c is absent).  Flushes
operating-system buffers for the backing file; the file contents are not
modified. -/
def lfs2_filebd_sync (cfg : Config) (file : List Nat) :
    Except Err (List Nat) :=
  .ok file

/-- Writing within the current extent of the file preserves its length. -/
theorem writeBytes_length (file : List Nat) (pos : Nat) (data : List Nat)
    (h : pos + data.length ≤ file.length) :
    (writeBytes file pos data).length = file.length := by
  simp only [writeBytes, List.length_append, List.length_take,
    List.length_drop]
  omega

/-- Reading back a slice of a freshly written region returns the
corresponding slice of the written data. -/
theorem readBytes_writeBytes (file : List Nat) (pos o len : Nat)
    (data : List Nat) (hpos : pos ≤ file.length)
    (hin : o + len ≤ data.length) :
    readBytes (writeBytes file pos data) (pos + o) len =
      (data.drop o).take len := by
  have htk : (file.take pos).length = pos := by
    simp [List.length_take]; omega
  simp only [readBytes, writeBytes, List.append_assoc]
  rw [show pos + o = (file.take pos).length + o by rw [htk]]
  rw [List.drop_append]
  rw [List.drop_append_of_le_length (by omega)]
  rw [List.take_append_of_le_length (by simp [List.length_drop]; omega)]

/-- Reading a slice lying inside the file yields exactly `len` bytes. -/
theorem readBytes_length_of_le (file : List Nat) (pos len : Nat)
    (h : pos + len ≤ file.length) :
    (readBytes file pos len).length = len := by
  simp only [readBytes, List.length_take, List.length_drop]
  omega

/-- Reading back exactly the freshly written region returns the data. -/
theorem readBytes_writeBytes_self (file : List Nat) (pos : Nat)
    (data : List Nat) (hpos : pos ≤ file.length) :
    readBytes (writeBytes file pos data) pos data.length = data := by
  have h := readBytes_writeBytes file pos 0 data.length data hpos (by omega)
  simpa using h

/-- A valid read with the target slice inside the file succeeds and leaves
the backing file untouched. -/
theorem lfs2_filebd_read_ok (cfg : Config) (file : List Nat)
    (block off len : Nat) (hb : block < cfg.erase_count)
    (hol : off + len ≤ cfg.erase_size)
    (hin : block * cfg.erase_size + off + len ≤ file.length) :
    lfs2_filebd_read cfg file block off len =
      .ok (file, readBytes file (block * cfg.erase_size + off) len) := by
  have hlen : (readBytes file (block * cfg.erase_size + off) len).length = len :=
    readBytes_length_of_le _ _ _ (by omega)
  unfold lfs2_filebd_read
  rw [if_neg (by omega), if_neg (by omega)]

/-- A block strictly below erase_count starts inside the logical extent. -/
theorem block_mul_le (cfg : Config) (b : Nat) (hb : b < cfg.erase_count) :
    (b + 1) * cfg.erase_size ≤ totalSize cfg := by
  rw [totalSize]
  calc (b + 1) * cfg.erase_size
      ≤ cfg.erase_count * cfg.erase_size := Nat.mul_le_mul_right _ hb
    _ = cfg.erase_size * cfg.erase_count := Nat.mul_comm _ _

/-- C1: for every block b with b < erase_count, erase(b) succeeds, writes
erase_size bytes of the erase value 0xFF starting at byte position
b * erase_size, and a subsequent read of any range within block b returns
bytes all equal to 0xFF. -/
theorem C1_erase_resets_block (cfg : Config) (file : List Nat)
    (b off len : Nat) (hb : b < cfg.erase_count)
    (hfile : file.length = totalSize cfg)
    (hol : off + len ≤ cfg.erase_size) :
    ∃ file2,
      lfs2_filebd_erase cfg file b = .ok file2 ∧
      file2 = writeBytes file (b * cfg.erase_size)
        (List.replicate cfg.erase_size eraseValue) ∧
      lfs2_filebd_read cfg file2 b off len =
        .ok (file2, List.replicate len eraseValue) := by
  have hmul := block_mul_le cfg b hb
  have hpos : b * cfg.erase_size + cfg.erase_size ≤ file.length := by
    rw [hfile]
    calc b * cfg.erase_size + cfg.erase_size
        = (b + 1) * cfg.erase_size := by ring
      _ ≤ totalSize cfg := hmul
  refine ⟨_, ?_, rfl, ?_⟩
  · unfold lfs2_filebd_erase
    rw [if_neg (by omega)]
  · have hlen2 : (writeBytes file (b * cfg.erase_size)
        (List.replicate cfg.erase_size eraseValue)).length = file.length :=
      writeBytes_length _ _ _ (by simpa using hpos)
    have hrb : readBytes
        (writeBytes file (b * cfg.erase_size)
          (List.replicate cfg.erase_size eraseValue))
        (b * cfg.erase_size + off) len = List.replicate len eraseValue := by
      rw [readBytes_writeBytes file (b * cfg.erase_size) off len _
        (by omega) (by simpa using hol)]
      rw [List.drop_replicate, List.take_replicate]
      congr 1
      omega
    rw [lfs2_filebd_read_ok cfg _ b off len hb hol (by omega), hrb]

/-- C2: for every block b in range, offset off and data d with
off + |d| ≤ erase_size, erase(b) then program(b, off, d) then
read(b, off, |d|) returns exactly d. -/
theorem C2_erase_prog_read_roundtrip (cfg : Config) (file : List Nat)
    (b off : Nat) (d : List Nat) (hb : b < cfg.erase_count)
    (hfile : file.length = totalSize cfg)
    (hol : off + d.length ≤ cfg.erase_size) :
    ∃ f1 f2,
      lfs2_filebd_erase cfg file b = .ok f1 ∧
      lfs2_filebd_prog cfg f1 b off d = .ok f2 ∧
      lfs2_filebd_read cfg f2 b off d.length = .ok (f2, d) := by
  have hmul := block_mul_le cfg b hb
  have hpos : b * cfg.erase_size + cfg.erase_size ≤ file.length := by
    rw [hfile]
    calc b * cfg.erase_size + cfg.erase_size
        = (b + 1) * cfg.erase_size := by ring
      _ ≤ totalSize cfg := hmul
  have hlen1 : (writeBytes file (b * cfg.erase_size)
      (List.replicate cfg.erase_size eraseValue)).length = file.length :=
    writeBytes_length _ _ _ (by simpa using hpos)
  set f1 := writeBytes file (b * cfg.erase_size)
      (List.replicate cfg.erase_size eraseValue) with hf1
  refine ⟨f1, writeBytes f1 (b * cfg.erase_size + off) d, ?_, ?_, ?_⟩
  · unfold lfs2_filebd_erase
    rw [if_neg (by omega), hf1]
  · unfold lfs2_filebd_prog
    rw [if_neg (by omega)]
  · have hrb : readBytes (writeBytes f1 (b * cfg.erase_size + off) d)
        (b * cfg.erase_size + off) d.length = d :=
      readBytes_writeBytes_self f1 _ d (by omega)
    have hlen2 : (writeBytes f1 (b * cfg.erase_size + off) d).length =
        f1.length :=
      writeBytes_length _ _ _ (by omega)
    rw [lfs2_filebd_read_ok cfg _ b off d.length hb hol (by omega), hrb]

/-- C1 witness: geometry 4-byte blocks, 3 blocks, over an all-zero image. -/
theorem C1_erase_resets_block_witness :
    ∃ file2,
      lfs2_filebd_erase (Config.mk 1 1 4 3) (List.replicate 12 0) 1 =
        .ok file2 ∧
      file2 = writeBytes (List.replicate 12 0) (1 * 4)
        (List.replicate 4 eraseValue) ∧
      lfs2_filebd_read (Config.mk 1 1 4 3) file2 1 1 2 =
        .ok (file2, List.replicate 2 eraseValue) :=
  C1_erase_resets_block (Config.mk 1 1 4 3) (List.replicate 12 0) 1 1 2
    (by decide) (by decide) (by decide)

/-- C2 witness: erase block 2 then program [1, 2] at offset 1, read it back. -/
theorem C2_erase_prog_read_roundtrip_witness :
    ∃ f1 f2,
      lfs2_filebd_erase (Config.mk 1 1 4 3) (List.replicate 12 0) 2 =
        .ok f1 ∧
      lfs2_filebd_prog (Config.mk 1 1 4 3) f1 2 1 [1, 2] = .ok f2 ∧
      lfs2_filebd_read (Config.mk 1 1 4 3) f2 2 1 2 = .ok (f2, [1, 2]) :=
  C2_erase_prog_read_roundtrip (Config.mk 1 1 4 3) (List.replicate 12 0) 2 1
    [1, 2] (by decide) (by decide) (by decide)

/-- C3: a call whose arguments violate the block-address-space bounds
(block out of range, or offset + length past the block end) fails with
RangeError; in this embedding an error result carries no new file contents,
so the backing file is left unchanged and no file access is modelled. -/
theorem C3_out_of_range_rejected (cfg : Config) (file : List Nat)
    (b off len : Nat) (d : List Nat) :
    (cfg.erase_count ≤ b ∨ cfg.erase_size < off + len →
      lfs2_filebd_read cfg file b off len = .error .RangeError) ∧
    (cfg.erase_count ≤ b ∨ cfg.erase_size < off + d.length →
      lfs2_filebd_prog cfg file b off d = .error .RangeError) ∧
    (cfg.erase_count ≤ b →
      lfs2_filebd_erase cfg file b = .error .RangeError) := by
  refine ⟨fun h => ?_, fun h => ?_, fun h => ?_⟩
  · unfold lfs2_filebd_read
    rw [if_pos h]
  · unfold lfs2_filebd_prog
    rw [if_pos h]
  · unfold lfs2_filebd_erase
    rw [if_pos h]

/-- C3 witness: block 3 of 3 is out of range; offset 3 + length 2 > 4. -/
theorem C3_out_of_range_rejected_witness :
    lfs2_filebd_read (Config.mk 1 1 4 3) (List.replicate 12 0) 3 0 1 =
      .error .RangeError ∧
    lfs2_filebd_prog (Config.mk 1 1 4 3) (List.replicate 12 0) 0 3 [0, 0] =
      .error .RangeError ∧
    lfs2_filebd_erase (Config.mk 1 1 4 3) (List.replicate 12 0) 3 =
      .error .RangeError :=
  ⟨(C3_out_of_range_rejected (Config.mk 1 1 4 3) (List.replicate 12 0)
      3 0 1 []).1 (Or.inl (by decide)),
   (C3_out_of_range_rejected (Config.mk 1 1 4 3) (List.replicate 12 0)
      0 3 0 [0, 0]).2.1 (Or.inr (by decide)),
   (C3_out_of_range_rejected (Config.mk 1 1 4 3) (List.replicate 12 0)
      3 0 0 []).2.2 (by decide)⟩

/-- C4: create yields a file of length at least erase_size * erase_count,
keeps every prior byte unchanged as an exact initial segment, fills any
newly added suffix with the erase value 0xFF, and returns a sufficiently
large pre-existing file completely unchanged. -/
theorem C4_create_preserves_and_extends (cfg : Config) (file : List Nat) :
    totalSize cfg ≤ (lfs2_filebd_create cfg file).length ∧
    (lfs2_filebd_create cfg file).take file.length = file ∧
    (lfs2_filebd_create cfg file).drop file.length =
      List.replicate ((lfs2_filebd_create cfg file).length - file.length)
        eraseValue ∧
    (totalSize cfg ≤ file.length → lfs2_filebd_create cfg file = file) := by
  unfold lfs2_filebd_create
  by_cases h : file.length < totalSize cfg
  · rw [if_pos h]
    refine ⟨?_, List.take_left _ _, ?_, fun hle => by omega⟩
    · rw [List.length_append, List.length_replicate]
      omega
    · rw [List.drop_left]
      congr 1
      rw [List.length_append, List.length_replicate]
      omega
  · rw [if_neg h]
    exact ⟨by omega, by simp, by simp, fun _ => rfl⟩

/-- C4 witness: a 5-byte image over a 4-byte geometry is left unchanged. -/
theorem C4_create_preserves_and_extends_witness :
    lfs2_filebd_create (Config.mk 1 1 2 2) (List.replicate 5 3) =
      List.replicate 5 3 :=
  (C4_create_preserves_and_extends (Config.mk 1 1 2 2)
    (List.replicate 5 3)).2.2.2 (by decide)

/-- C5: a valid read returns exactly `len` bytes, equal to the bytes stored
in the backing file at absolute position block * erase_size + off, leaving
the file unchanged; when the underlying file read yields fewer than `len`
bytes the operation fails with IOError instead of returning partial data. -/
theorem C5_read_exact (cfg : Config) (file : List Nat) (b off len : Nat)
    (hb : b < cfg.erase_count) (hol : off + len ≤ cfg.erase_size) :
    (b * cfg.erase_size + off + len ≤ file.length →
      lfs2_filebd_read cfg file b off len =
        .ok (file, readBytes file (b * cfg.erase_size + off) len) ∧
      (readBytes file (b * cfg.erase_size + off) len).length = len) ∧
    ((readBytes file (b * cfg.erase_size + off) len).length < len →
      lfs2_filebd_read cfg file b off len = .error .IOError) := by
  constructor
  · intro hin
    exact ⟨lfs2_filebd_read_ok cfg file b off len hb hol hin,
      readBytes_length_of_le _ _ _ hin⟩
  · intro hshort
    unfold lfs2_filebd_read
    rw [if_neg (by omega), if_pos hshort]

/-- C5 witness: read 3 bytes at block 2, offset 1 of a 12-byte image. -/
theorem C5_read_exact_witness :
    lfs2_filebd_read (Config.mk 1 1 4 3) (List.replicate 12 7) 2 1 3 =
      .ok (List.replicate 12 7, readBytes (List.replicate 12 7) 9 3) ∧
    (readBytes (List.replicate 12 7) 9 3).length = 3 :=
  (C5_read_exact (Config.mk 1 1 4 3) (List.replicate 12 7) 2 1 3
    (by decide) (by decide)).1 (by decide)

/-- C6: program performs the write unconditionally, overwriting whatever
bytes are stored at block * erase_size + off with no check that the target
currently holds the erase value; the written data is then read back. -/
theorem C6_prog_overwrites_unconditionally (cfg : Config) (file : List Nat)
    (b off : Nat) (d : List Nat) (hb : b < cfg.erase_count)
    (hfile : file.length = totalSize cfg)
    (hol : off + d.length ≤ cfg.erase_size) :
    lfs2_filebd_prog cfg file b off d =
      .ok (writeBytes file (b * cfg.erase_size + off) d) ∧
    lfs2_filebd_read cfg (writeBytes file (b * cfg.erase_size + off) d)
        b off d.length =
      .ok (writeBytes file (b * cfg.erase_size + off) d, d) := by
  have hmul := block_mul_le cfg b hb
  have hpos : b * cfg.erase_size + cfg.erase_size ≤ file.length := by
    rw [hfile]
    calc b * cfg.erase_size + cfg.erase_size
        = (b + 1) * cfg.erase_size := by ring
      _ ≤ totalSize cfg := hmul
  have hlen2 : (writeBytes file (b * cfg.erase_size + off) d).length =
      file.length :=
    writeBytes_length _ _ _ (by omega)
  constructor
  · unfold lfs2_filebd_prog
    rw [if_neg (by omega)]
  · have hrb : readBytes (writeBytes file (b * cfg.erase_size + off) d)
        (b * cfg.erase_size + off) d.length = d :=
      readBytes_writeBytes_self file _ d (by omega)
    rw [lfs2_filebd_read_ok cfg _ b off d.length hb hol (by omega), hrb]

/-- C6 witness: programming [9, 9] into a block whose bytes are 0, not the
erase value 0xFF, still succeeds and is read back. -/
theorem C6_prog_overwrites_unconditionally_witness :
    lfs2_filebd_prog (Config.mk 1 1 4 3) (List.replicate 12 0) 1 2 [9, 9] =
      .ok (writeBytes (List.replicate 12 0) 6 [9, 9]) ∧
    lfs2_filebd_read (Config.mk 1 1 4 3)
        (writeBytes (List.replicate 12 0) 6 [9, 9]) 1 2 2 =
      .ok (writeBytes (List.replicate 12 0) 6 [9, 9], [9, 9]) :=
  C6_prog_overwrites_unconditionally (Config.mk 1 1 4 3)
    (List.replicate 12 0) 1 2 [9, 9] (by decide) (by decide) (by decide)

/-- A block strictly below erase_count ends inside a file whose length is
the logical extent. -/
theorem block_off_le (cfg : Config) (file : List Nat) (b : Nat)
    (hb : b < cfg.erase_count) (hfile : file.length = totalSize cfg) :
    b * cfg.erase_size + cfg.erase_size ≤ file.length := by
  rw [hfile]
  calc b * cfg.erase_size + cfg.erase_size
      = (b + 1) * cfg.erase_size := by ring
    _ ≤ totalSize cfg := block_mul_le cfg b hb

/-- C7: sync succeeds without touching the file, and destroy followed by
create over the same backing file with the same geometry reproduces the
exact same contents, so every later read returns the same result as before
the simulated restart. -/
theorem C7_sync_destroy_create_durable (cfg : Config) (file : List Nat)
    (hfile : file.length = totalSize cfg) :
    lfs2_filebd_sync cfg file = .ok file ∧
    lfs2_filebd_create cfg (lfs2_filebd_destroy file) = file ∧
    ∀ b off len,
      lfs2_filebd_read cfg
          (lfs2_filebd_create cfg (lfs2_filebd_destroy file)) b off len =
        lfs2_filebd_read cfg file b off len := by
  have hc : lfs2_filebd_create cfg (lfs2_filebd_destroy file) = file := by
    unfold lfs2_filebd_destroy lfs2_filebd_create
    rw [if_neg (by omega)]
  exact ⟨rfl, hc, fun b off len => by rw [hc]⟩

/-- C7 witness: a full-extent 4-byte image survives sync, destroy, create. -/
theorem C7_sync_destroy_create_durable_witness :
    lfs2_filebd_create (Config.mk 1 1 2 2)
        (lfs2_filebd_destroy (List.replicate 4 5)) =
      List.replicate 4 5 :=
  (C7_sync_destroy_create_durable (Config.mk 1 1 2 2) (List.replicate 4 5)
    (by decide)).2.1

/-- C8: every operation preserves the invariant that the backing file is a
flat byte array of exactly erase_size * erase_count bytes, and byte i of
that array is the byte block i / erase_size holds at intra-block offset
i % erase_size. -/
theorem C8_extent_invariant (cfg : Config) (file : List Nat)
    (hfile : file.length = totalSize cfg) (hes : 0 < cfg.erase_size) :
    (lfs2_filebd_create cfg file).length = totalSize cfg ∧
    (∀ b off len f2 bs,
      lfs2_filebd_read cfg file b off len = .ok (f2, bs) →
        f2.length = totalSize cfg) ∧
    (∀ b off d f2,
      lfs2_filebd_prog cfg file b off d = .ok f2 →
        f2.length = totalSize cfg) ∧
    (∀ b f2,
      lfs2_filebd_erase cfg file b = .ok f2 →
        f2.length = totalSize cfg) ∧
    (∀ f2,
      lfs2_filebd_sync cfg file = .ok f2 →
        f2.length = totalSize cfg) ∧
    (∀ i, i < totalSize cfg →
      lfs2_filebd_read cfg file (i / cfg.erase_size) (i % cfg.erase_size) 1 =
        .ok (file, readBytes file i 1)) := by
  refine ⟨?_, ?_, ?_, ?_, ?_, ?_⟩
  · unfold lfs2_filebd_create
    rw [if_neg (by omega)]
    exact hfile
  · intro b off len f2 bs h
    unfold lfs2_filebd_read at h
    by_cases hc : cfg.erase_count ≤ b ∨ cfg.erase_size < off + len
    · rw [if_pos hc] at h
      exact absurd h (by simp)
    · rw [if_neg hc] at h
      by_cases hs : (readBytes file (b * cfg.erase_size + off) len).length < len
      · rw [if_pos hs] at h
        exact absurd h (by simp)
      · rw [if_neg hs] at h
        simp only [Except.ok.injEq, Prod.mk.injEq] at h
        rw [← h.1]
        exact hfile
  · intro b off d f2 h
    unfold lfs2_filebd_prog at h
    by_cases hc : cfg.erase_count ≤ b ∨ cfg.erase_size < off + d.length
    · rw [if_pos hc] at h
      exact absurd h (by simp)
    · rw [if_neg hc] at h
      push_neg at hc
      have hq := block_off_le cfg file b hc.1 hfile
      simp only [Except.ok.injEq] at h
      rw [← h, writeBytes_length _ _ _ (by omega)]
      exact hfile
  · intro b f2 h
    unfold lfs2_filebd_erase at h
    by_cases hc : cfg.erase_count ≤ b
    · rw [if_pos hc] at h
      exact absurd h (by simp)
    · rw [if_neg hc] at h
      push_neg at hc
      have hq := block_off_le cfg file b hc hfile
      simp only [Except.ok.injEq] at h
      rw [← h, writeBytes_length _ _ _ (by simpa using hq)]
      exact hfile
  · intro f2 h
    unfold lfs2_filebd_sync at h
    simp only [Except.ok.injEq] at h
    rw [← h]
    exact hfile
  · intro i hi
    have hi2 : i < cfg.erase_size * cfg.erase_count := by
      rw [← totalSize]
      exact hi
    have hb : i / cfg.erase_size < cfg.erase_count := by
      rw [Nat.div_lt_iff_lt_mul hes, Nat.mul_comm]
      exact hi2
    have hmod : i % cfg.erase_size < cfg.erase_size := Nat.mod_lt _ hes
    have hsplit : i / cfg.erase_size * cfg.erase_size + i % cfg.erase_size
        = i := by
      rw [Nat.mul_comm]
      exact Nat.div_add_mod i cfg.erase_size
    rw [lfs2_filebd_read_ok cfg file (i / cfg.erase_size)
      (i % cfg.erase_size) 1 hb (by omega) (by rw [hsplit]; omega),
      hsplit]

/-- C8 witness: create over a full-extent image keeps the exact extent. -/
theorem C8_extent_invariant_witness :
    (lfs2_filebd_create (Config.mk 1 1 2 2) (List.replicate 4 0)).length =
      totalSize (Config.mk 1 1 2 2) :=
  (C8_extent_invariant (Config.mk 1 1 2 2) (List.replicate 4 0)
    (by decide) (by decide)).1

/-- C9: the read_size and prog_size granularity fields are never consulted:
replacing them by arbitrary values leaves read, program and erase results
unchanged, and a read whose length satisfies only the block-range
precondition succeeds whether or not it is a multiple of read_size. -/
theorem C9_granularity_not_enforced (cfg : Config) (r p : Nat)
    (file : List Nat) (b off len : Nat) (d : List Nat) :
    (lfs2_filebd_read (Config.mk r p cfg.erase_size cfg.erase_count) file
        b off len = lfs2_filebd_read cfg file b off len) ∧
    (lfs2_filebd_prog (Config.mk r p cfg.erase_size cfg.erase_count) file
        b off d = lfs2_filebd_prog cfg file b off d) ∧
    (lfs2_filebd_erase (Config.mk r p cfg.erase_size cfg.erase_count) file
        b = lfs2_filebd_erase cfg file b) ∧
    (b < cfg.erase_count → off + len ≤ cfg.erase_size →
      b * cfg.erase_size + off + len ≤ file.length →
      lfs2_filebd_read cfg file b off len =
        .ok (file, readBytes file (b * cfg.erase_size + off) len)) :=
  ⟨rfl, rfl, rfl, fun hb hol hin =>
    lfs2_filebd_read_ok cfg file b off len hb hol hin⟩

/-- C9 witness: with read_size = prog_size = 2, a 3-byte read at offset 1
(neither a multiple of the granularity) still succeeds. -/
theorem C9_granularity_not_enforced_witness :
    lfs2_filebd_read (Config.mk 2 2 4 3) (List.replicate 12 7) 1 1 3 =
      .ok (List.replicate 12 7, readBytes (List.replicate 12 7) 5 3) :=
  (C9_granularity_not_enforced (Config.mk 2 2 4 3) 5 5
    (List.replicate 12 7) 1 1 3 []).2.2.2 (by decide) (by decide) (by decide)

/-- C10: read and sync never modify the backing store: the file carried by
any read result (successful or not) is the input file, and sync returns the
input file unchanged. -/
theorem C10_read_sync_frame (cfg : Config) (file : List Nat)
    (b off len : Nat) :
    Except.map Prod.fst (lfs2_filebd_read cfg file b off len) =
      Except.map (fun _ => file) (lfs2_filebd_read cfg file b off len) ∧
    lfs2_filebd_sync cfg file = .ok file := by
  refine ⟨?_, rfl⟩
  unfold lfs2_filebd_read
  split
  · rfl
  · split
    · rfl
    · rfl

end LFS2
